import Mathlib

/-!
Verification of the Content Visibility & Threaded Retrieval Engine
(`crates/db_views/src/comment/comment_view.rs`): a shallow embedding of
`CommentView::read` and `CommentQuery::list` over an explicit relational
database value, and proofs of the specified visibility, tree-scoping,
ordering and pagination properties.

Rows are joined with keyed lookups (`List.find?`), embedding the primary-key
uniqueness of the underlying schema.  `ltree` paths are modelled as lists of
numeric labels (`List Nat`); `nlevel` is `List.length`, `contained_by` is
`List.isPrefixOf`, and `subpath(p, 0, -1)` is `List.dropLast`.  SQL `ORDER BY`
chains are modelled as a lexicographic key (`List (List Int)`, descending
columns negated) together with `List.insertionSort`.
-/

namespace Lemmy

/-- Community visibility states (`CommunityVisibility` in the schema). -/
inductive CommunityVisibility where
  | Public
  | LocalOnlyPublic
  | LocalOnlyPrivate
  | Private
  deriving DecidableEq, Repr

/-- Follow states of a community follower (`CommunityFollowerState`). -/
inductive CommunityFollowerState where
  | Accepted
  | Pending
  | ApprovalRequired
  deriving DecidableEq, Repr

/-- Listing types (`ListingType`); the source default is `All`. -/
inductive ListingType where
  | All
  | Local
  | Subscribed
  | ModeratorView
  deriving DecidableEq, Repr

/-- Comment sort types (`CommentSortType`); the source default is `Hot`. -/
inductive CommentSortType where
  | Hot
  | Controversial
  | New
  | Old
  | Top
  deriving DecidableEq, Repr

/-- A row of the `comment` table.  `path` is the materialized ltree path
(ordered ancestor ids including the comment itself, root label first). -/
structure Comment where
  id : Nat
  creator_id : Nat
  post_id : Nat
  content : String
  removed : Bool
  path : List Nat
  distinguished : Bool
  language_id : Nat
  deleted : Bool
  federation_pending : Bool
  score : Int
  hot_rank : Int
  controversy_rank : Int
  published : Int
  deriving DecidableEq, Repr

/-- A row of the `post` table (the columns the engine reads). -/
structure Post where
  id : Nat
  community_id : Nat
  nsfw : Bool
  deriving DecidableEq, Repr

/-- A row of the `community` table (the columns the engine reads). -/
structure Community where
  id : Nat
  instance_id : Nat
  is_local : Bool
  nsfw : Bool
  visibility : CommunityVisibility
  deriving DecidableEq, Repr

/-- A row of the `person` table (the columns the engine reads). -/
structure Person where
  id : Nat
  instance_id : Nat
  bot_account : Bool
  deriving DecidableEq, Repr

/-- A row of the `local_user` table (the columns the engine reads). -/
structure LocalUser where
  id : Nat
  person_id : Nat
  admin : Bool
  show_nsfw : Bool
  show_bot_accounts : Bool
  deriving DecidableEq, Repr

/-- A row of `community_actions`, keyed by `(person_id, community_id)`;
optional columns model the nullable timestamp/state columns. -/
structure CommunityActions where
  community_id : Nat
  person_id : Nat
  followed : Option Int
  follow_state : Option CommunityFollowerState
  became_moderator : Option Int
  received_ban : Option Int
  deriving DecidableEq, Repr

/-- A row of `comment_actions`, keyed by `(person_id, comment_id)`. -/
structure CommentActions where
  comment_id : Nat
  person_id : Nat
  like_score : Option Int
  deriving DecidableEq, Repr

/-- A row of `person_actions`, keyed by `(person_id, target_id)`. -/
structure PersonActions where
  person_id : Nat
  target_id : Nat
  blocked : Option Int
  deriving DecidableEq, Repr

/-- A row of `instance_actions`, keyed by `(person_id, instance_id)`. -/
structure InstanceActions where
  person_id : Nat
  instance_id : Nat
  blocked : Option Int
  deriving DecidableEq, Repr

/-- A row of `local_user_language`, keyed by `(local_user_id, language_id)`. -/
structure LocalUserLanguage where
  local_user_id : Nat
  language_id : Nat
  deriving DecidableEq, Repr

/-- The `site` row: the engine only reads the content-warning column. -/
structure Site where
  content_warning : Option String
  deriving DecidableEq, Repr

/-- The database snapshot a query runs against.  `now` is the clock value the
store substitutes for the SQL `now()` in the time-range filter. -/
structure Db where
  comments : List Comment
  posts : List Post
  communities : List Community
  persons : List Person
  local_users : List LocalUser
  community_actions : List CommunityActions
  comment_actions : List CommentActions
  person_actions : List PersonActions
  instance_actions : List InstanceActions
  local_user_languages : List LocalUserLanguage
  now : Int
  deriving DecidableEq, Repr

/-- One row of the join built by `CommentView::joins`: the comment with its
creator, post and community (inner joins) and the viewer-dependent action
rows (left joins, `none` when the viewer is absent or has no row). -/
structure JoinedRow where
  comment : Comment
  creator : Person
  post : Post
  community : Community
  community_actions : Option CommunityActions
  comment_actions : Option CommentActions
  person_actions : Option PersonActions
  instance_actions : Option InstanceActions
  creator_community_actions : Option CommunityActions
  local_user : Option LocalUser
  deriving DecidableEq, Repr

/-- Helper for `LocalUserOptionHelper::person_id`. -/
def personId (u : Option LocalUser) : Option Nat :=
  u.map (·.person_id)

/-- Helper for `LocalUserOptionHelper::local_user_id`. -/
def localUserId (u : Option LocalUser) : Option Nat :=
  u.map (·.id)

/-- Helper for `LocalUserOptionHelper::is_admin`: `false` for the
unauthenticated viewer. -/
def is_admin (u : Option LocalUser) : Bool :=
  (u.map (·.admin)).getD false

/-- Modelled from the spec: `LocalUserOptionHelper::show_bot_accounts` is not
under src/; an authenticated viewer's preference decides (spec §4.2 "if
`show_bot_accounts` is false, items authored by bot accounts are excluded"),
and an unauthenticated viewer is not restricted. -/
def show_bot_accounts (u : Option LocalUser) : Bool :=
  (u.map (·.show_bot_accounts)).getD true

/-- Modelled from the spec: `LocalUserOptionHelper::show_nsfw` is not under
src/.  Spec §4.2 shows NSFW content "only if `show_nsfw` is true AND (for
listings) the site has a content-warning set".  For an unauthenticated viewer
the in-repo test `comment_listings_hide_nsfw` returns NSFW comments exactly
when the site has a content warning, so the unauthenticated branch follows
that test rather than the spec's default-false preference. -/
def show_nsfw (u : Option LocalUser) (site : Site) : Bool :=
  match u with
  | some lu => lu.show_nsfw && site.content_warning.isSome
  | none => site.content_warning.isSome

/-- Modelled from the spec: `LocalUserOptionHelper::visible_communities_only`
is not under src/.  Spec §3 lists the visibility states and the in-repo test
`local_only_instance` hides a `LocalOnlyPrivate` community from the
unauthenticated viewer while an authenticated viewer sees it, so the
unauthenticated viewer is restricted to `Public` communities and
authenticated viewers are not restricted here. -/
def visibleCommunitiesPred (u : Option LocalUser) (r : JoinedRow) : Bool :=
  match u with
  | some _ => true
  | none => r.community.visibility == .Public

/-- Row form of `visible_communities_only` applied to a candidate list. -/
def visible_communities_only (u : Option LocalUser) (rows : List JoinedRow) :
    List JoinedRow :=
  rows.filter (visibleCommunitiesPred u)

/-- The private-community check (`comment_view.rs` lines 112-118 and
241-247): visibility is not `Private`, or the viewer's follow state for the
community is `Accepted`. -/
def privatePred (r : JoinedRow) : Bool :=
  r.community.visibility != .Private ||
    (r.community_actions.bind (·.follow_state)) == some .Accepted

/-- Does the viewer have a person-block fact against `target`
(`person_actions.blocked` set)? -/
def blockedPerson (db : Db) (viewer target : Nat) : Bool :=
  db.person_actions.any
    (fun a => a.person_id == viewer && a.target_id == target && a.blocked.isSome)

/-- Does the viewer have an instance-block fact against `inst`
(`instance_actions.blocked` set)? -/
def blockedInstance (db : Db) (viewer inst : Nat) : Bool :=
  db.instance_actions.any
    (fun a => a.person_id == viewer && a.instance_id == inst && a.blocked.isSome)

/-- Modelled from the spec: `filter_blocked` (in `db_views/src/utils.rs`) is
not under src/.  Spec §4.2: "exclude items whose creator is in
`blocked_person_ids`, or whose creator's instance is in
`blocked_instance_ids` — unless the item belongs to the viewer themself". -/
def filter_blocked (db : Db) (my_person_id : Option Nat) (r : JoinedRow) :
    Bool :=
  match my_person_id with
  | none => true
  | some vid =>
      r.comment.creator_id == vid ||
        (!(blockedPerson db vid r.comment.creator_id) &&
          !(blockedInstance db vid r.creator.instance_id))

/-- Left-join helper: joins keyed on the viewer yield `none` when the viewer
is absent (`person_id.nullable().eq(None)` never matches in SQL). -/
def optJoin (my_person_id : Option Nat) (f : Nat → Option β) : Option β :=
  my_person_id.bind f

/-- The join built by `CommentView::joins`: comment inner-joined with person,
post and community, left-joined with the viewer's `community_actions`,
`comment_actions`, `person_actions` and `instance_actions` rows, the
creator's `community_actions` row, and the viewer's `local_user` row. -/
def joins (db : Db) (my_person_id : Option Nat) : List JoinedRow :=
  db.comments.filterMap (fun c => do
    let creator ← db.persons.find? (fun p => p.id == c.creator_id)
    let post ← db.posts.find? (fun p => p.id == c.post_id)
    let community ← db.communities.find? (fun cm => cm.id == post.community_id)
    some
      { comment := c
        creator := creator
        post := post
        community := community
        community_actions :=
          optJoin my_person_id (fun pid => db.community_actions.find?
            (fun a => a.community_id == post.community_id && a.person_id == pid))
        comment_actions :=
          optJoin my_person_id (fun pid => db.comment_actions.find?
            (fun a => a.comment_id == c.id && a.person_id == pid))
        person_actions :=
          optJoin my_person_id (fun pid => db.person_actions.find?
            (fun a => a.target_id == c.creator_id && a.person_id == pid))
        instance_actions :=
          optJoin my_person_id (fun pid => db.instance_actions.find?
            (fun a => a.instance_id == community.instance_id && a.person_id == pid))
        creator_community_actions :=
          db.community_actions.find?
            (fun a => a.community_id == post.community_id && a.person_id == c.creator_id)
        local_user :=
          optJoin my_person_id (fun pid => db.local_users.find?
            (fun l => l.person_id == pid)) })

/-- Single-item read (`CommentView::read`): select the row with the given
comment id, apply `visible_communities_only` and the private-community
check, and take the first row.  `none` models diesel's `NotFound`. -/
def CommentView.read (db : Db) (comment_id : Nat)
    (my_local_user : Option LocalUser) : Option JoinedRow :=
  let rows := (joins db (personId my_local_user)).filter
    (fun r => r.comment.id == comment_id)
  let rows := visible_communities_only my_local_user rows
  let rows :=
    if is_admin my_local_user then rows
    else rows.filter privatePred
  rows.head?

/-- The query options of `CommentQuery` (the `local_user` reference is
embedded by value). -/
structure CommentQuery where
  listing_type : Option ListingType := none
  sort : Option CommentSortType := none
  time_range_seconds : Option Int := none
  community_id : Option Nat := none
  post_id : Option Nat := none
  parent_path : Option (List Nat) := none
  creator_id : Option Nat := none
  local_user : Option LocalUser := none
  liked_only : Option Bool := none
  disliked_only : Option Bool := none
  page : Option Int := none
  limit : Option Int := none
  max_depth : Option Int := none
  deriving Repr

/-- Errors surfaced by the pagination bounds check (spec §7
`InvalidPagination`). -/
inductive DbError where
  | invalidPagination
  deriving DecidableEq, Repr

/-- Modelled from the spec: the constant `FETCH_LIMIT_DEFAULT` of
`limit_and_offset` is not under src/; the spec only fixes that a default
exists ("Limit defaults to a fixed value when unspecified"). -/
def fetchLimitDefault : Int := 10

/-- Modelled from the spec: the constant `FETCH_LIMIT_MAX` of
`limit_and_offset` is not under src/; the spec only fixes that a safety
ceiling exists. -/
def fetchLimitMax : Int := 50

/-- Modelled from the spec: `limit_and_offset` (in `db_schema` utils) is not
under src/.  Spec §4.5 legacy page/offset mode is "bounded, rejects
limits/offsets beyond a safety ceiling — fails with `InvalidPagination` if
violated" and §7 lists "`InvalidPagination`: limit/offset outside allowed
bounds — surfaced"; the limit defaults to a fixed value when unspecified
and the page defaults to 1. -/
def limit_and_offset (page limit : Option Int) : Except DbError (Int × Int) :=
  match limit with
  | some l =>
      if 1 ≤ l && l ≤ fetchLimitMax then
        match page with
        | some p =>
            if 1 ≤ p then .ok (l, l * (p - 1)) else .error .invalidPagination
        | none => .ok (l, 0)
      else .error .invalidPagination
  | none =>
      match page with
      | some p =>
          if 1 ≤ p then .ok (fetchLimitDefault, fetchLimitDefault * (p - 1))
          else .error .invalidPagination
      | none => .ok (fetchLimitDefault, 0)

/-- Sort-specific ordering columns (descending columns negated):
`Hot` is `hot_rank desc, score desc`; `Controversial` is
`controversy_rank desc`; `New`/`Old` are `published desc`/`asc`;
`Top` is `score desc`. -/
def sortFields (s : CommentSortType) (r : JoinedRow) : List (List Int) :=
  match s with
  | .Hot => [[-r.comment.hot_rank], [-r.comment.score]]
  | .Controversial => [[-r.comment.controversy_rank]]
  | .New => [[-r.comment.published]]
  | .Old => [[r.comment.published]]
  | .Top => [[-r.comment.score]]

/-- The full `ORDER BY` key of a `CommentQuery::list` call: the parent-path
column `subpath(path, 0, -1)` first (tree fetches scoped to a post or
parent), then `distinguished desc` (queries scoped to a post or parent),
then the chosen sort's columns. -/
def sortKey (useSubpath useDistinguished : Bool) (s : CommentSortType)
    (r : JoinedRow) : List (List Int) :=
  (if useSubpath then [r.comment.path.dropLast.map Int.ofNat] else []) ++
    (if useDistinguished then [[if r.comment.distinguished then 0 else 1]]
      else []) ++
    sortFields s r

/-- Strict lexicographic order on one ordering column value (`ltree` values
are label lists; scalar columns are singleton lists). -/
def lexLtInt : List Int → List Int → Bool
  | [], [] => false
  | [], _ :: _ => true
  | _ :: _, [] => false
  | a :: as, b :: bs => a < b || (a == b && lexLtInt as bs)

/-- Lexicographic "at most" on a full ordering key (a list of column
values). -/
def lexLe : List (List Int) → List (List Int) → Bool
  | [], _ => true
  | _ :: _, [] => false
  | a :: as, b :: bs => lexLtInt a b || (a == b && lexLe as bs)

/-- Row order induced by a sort key. -/
def rowLe (f : JoinedRow → List (List Int)) (a b : JoinedRow) : Prop :=
  lexLe (f a) (f b) = true

instance (f : JoinedRow → List (List Int)) : DecidableRel (rowLe f) :=
  fun a b => decEq (lexLe (f a) (f b)) true

/-- Sorting a candidate set by a key: the deterministic realization of the
store's stable multi-key `ORDER BY`. -/
def sortRows (f : JoinedRow → List (List Int)) (l : List JoinedRow) :
    List JoinedRow :=
  List.insertionSort (rowLe f) l

/-- The absolute depth ceiling of a tree fetch (`comment_view.rs` lines
251-256): `parent_path` label count plus `max_depth` when a parent is
given, else `max_depth + 1` (one more for the root label `"0"`). -/
def depthLimit (o : CommentQuery) (max_depth : Int) : Int :=
  match o.parent_path with
  | some pp => (pp.length : Int) + max_depth
  | none => max_depth + 1

/-- The conjunction of every `WHERE` clause `CommentQuery::list` attaches, in
source order: scope filters (creator, post, parent path, community;
lines 167-181), listing type (187-192), liked/disliked (194-205), bot
accounts (207-209), language and block filter (211-226), NSFW (228-232),
visible communities (234), federation-pending (235-239), private community
(241-247), depth limit (250-258), and the time range (299-302; attached
after the ordering in the source, but a plain conjunct of the same atomic
query). -/
def passesFilters (o : CommentQuery) (site : Site) (db : Db) (r : JoinedRow) :
    Bool :=
  let my_person_id := personId o.local_user
  (match o.creator_id with
   | some cid => r.comment.creator_id == cid
   | none => true) &&
  (match o.post_id with
   | some pid => r.comment.post_id == pid
   | none => true) &&
  (match o.parent_path with
   | some pp => pp.isPrefixOf r.comment.path
   | none => true) &&
  (match o.community_id with
   | some cid => r.post.community_id == cid
   | none => true) &&
  (match o.listing_type.getD .All with
   | .Subscribed => (r.community_actions.bind (·.followed)).isSome
   | .Local => r.community.is_local
   | .All => true
   | .ModeratorView => (r.community_actions.bind (·.became_moderator)).isSome) &&
  (match my_person_id with
   | some my_id =>
       if o.liked_only.getD false then
         r.comment.creator_id != my_id &&
           (r.comment_actions.bind (·.like_score)) == some 1
       else if o.disliked_only.getD false then
         r.comment.creator_id != my_id &&
           (r.comment_actions.bind (·.like_score)) == some (-1)
       else true
   | none => true) &&
  (show_bot_accounts o.local_user || !r.creator.bot_account) &&
  (if o.local_user.isSome && o.listing_type.getD .All != .ModeratorView then
     db.local_user_languages.any (fun l =>
       l.language_id == r.comment.language_id &&
         some l.local_user_id == localUserId o.local_user) &&
       filter_blocked db my_person_id r
   else true) &&
  (show_nsfw o.local_user site || (!r.post.nsfw && !r.community.nsfw)) &&
  visibleCommunitiesPred o.local_user r &&
  (!r.comment.federation_pending || my_person_id == some r.comment.creator_id) &&
  (is_admin o.local_user || privatePred r) &&
  (match o.max_depth with
   | some max_depth => ((r.comment.path.length : Int) ≤ depthLimit o max_depth : Bool)
   | none => true) &&
  (match o.time_range_seconds with
   | some t => (db.now - t < r.comment.published : Bool)
   | none => true)

/-- The rows of `CommentQuery::list` that survive every filter. -/
def visibleRows (o : CommentQuery) (site : Site) (db : Db) : List JoinedRow :=
  (joins db (personId o.local_user)).filter (passesFilters o site db)

/-- Listing (`CommentQuery::list`): filter, order, then paginate.  A set
`max_depth` marks a tree fetch: the caller's page and limit are ignored and
a fixed cap of 300 rows applies; otherwise page and limit go through the
bounds-checked `limit_and_offset`. -/
def CommentQuery.list (o : CommentQuery) (site : Site) (db : Db) :
    Except DbError (List JoinedRow) :=
  let isScoped := o.post_id.isSome || o.parent_path.isSome
  let key := sortKey (o.max_depth.isSome && isScoped) isScoped (o.sort.getD .Hot)
  let sorted := sortRows key (visibleRows o site db)
  match o.max_depth with
  | some _ => .ok (sorted.take 300)
  | none => do
      let (limit, offset) ← limit_and_offset o.page o.limit
      return (sorted.drop offset.toNat).take limit.toNat

/-! ### Order-theory facts about the sort keys -/

theorem lexLtInt_trans {a b c : List Int} (h1 : lexLtInt a b = true)
    (h2 : lexLtInt b c = true) : lexLtInt a c = true := by
  induction a generalizing b c with
  | nil =>
    cases b with
    | nil => simp [lexLtInt] at h1
    | cons y ys =>
      cases c with
      | nil => simp [lexLtInt] at h2
      | cons z zs => simp [lexLtInt]
  | cons x xs ih =>
    cases b with
    | nil => simp [lexLtInt] at h1
    | cons y ys =>
      cases c with
      | nil => simp [lexLtInt] at h2
      | cons z zs =>
        simp only [lexLtInt, Bool.or_eq_true, Bool.and_eq_true, beq_iff_eq,
          decide_eq_true_eq] at h1 h2 ⊢
        rcases h1 with h1 | ⟨rfl, h1⟩
        · rcases h2 with h2 | ⟨rfl, _⟩
          · exact Or.inl (lt_trans h1 h2)
          · exact Or.inl h1
        · rcases h2 with h2 | ⟨rfl, h2⟩
          · exact Or.inl h2
          · exact Or.inr ⟨rfl, ih h1 h2⟩

theorem lexLtInt_trichotomy (a b : List Int) :
    lexLtInt a b = true ∨ a = b ∨ lexLtInt b a = true := by
  induction a generalizing b with
  | nil =>
    cases b with
    | nil => exact Or.inr (Or.inl rfl)
    | cons y ys => exact Or.inl (by simp [lexLtInt])
  | cons x xs ih =>
    cases b with
    | nil => exact Or.inr (Or.inr (by simp [lexLtInt]))
    | cons y ys =>
      rcases lt_trichotomy x y with hxy | rfl | hxy
      · exact Or.inl (by simp [lexLtInt, hxy])
      · rcases ih ys with h | rfl | h
        · exact Or.inl (by simp [lexLtInt, h])
        · exact Or.inr (Or.inl rfl)
        · exact Or.inr (Or.inr (by simp [lexLtInt, h]))
      · exact Or.inr (Or.inr (by simp [lexLtInt, hxy]))

theorem lexLe_total (a b : List (List Int)) :
    lexLe a b = true ∨ lexLe b a = true := by
  induction a generalizing b with
  | nil => exact Or.inl (by simp [lexLe])
  | cons x xs ih =>
    cases b with
    | nil => exact Or.inr (by simp [lexLe])
    | cons y ys =>
      rcases lexLtInt_trichotomy x y with h | rfl | h
      · exact Or.inl (by simp [lexLe, h])
      · rcases ih ys with h | h
        · exact Or.inl (by simp [lexLe, h])
        · exact Or.inr (by simp [lexLe, h])
      · exact Or.inr (by simp [lexLe, h])

theorem lexLe_trans {a b c : List (List Int)} (h1 : lexLe a b = true)
    (h2 : lexLe b c = true) : lexLe a c = true := by
  induction a generalizing b c with
  | nil => simp [lexLe]
  | cons x xs ih =>
    cases b with
    | nil => simp [lexLe] at h1
    | cons y ys =>
      cases c with
      | nil => simp [lexLe] at h2
      | cons z zs =>
        simp only [lexLe, Bool.or_eq_true, Bool.and_eq_true, beq_iff_eq] at h1 h2 ⊢
        rcases h1 with h1 | ⟨rfl, h1⟩
        · rcases h2 with h2 | ⟨rfl, _⟩
          · exact Or.inl (lexLtInt_trans h1 h2)
          · exact Or.inl h1
        · rcases h2 with h2 | ⟨rfl, h2⟩
          · exact Or.inl h2
          · exact Or.inr ⟨rfl, ih h1 h2⟩

instance (f : JoinedRow → List (List Int)) : IsTotal JoinedRow (rowLe f) :=
  ⟨fun a b => lexLe_total (f a) (f b)⟩

instance (f : JoinedRow → List (List Int)) : IsTrans JoinedRow (rowLe f) :=
  ⟨fun _ _ _ h1 h2 => lexLe_trans h1 h2⟩

theorem sorted_sortRows (f : JoinedRow → List (List Int))
    (l : List JoinedRow) : (sortRows f l).Sorted (rowLe f) :=
  List.sorted_insertionSort _ _

theorem mem_sortRows {f : JoinedRow → List (List Int)} {l : List JoinedRow}
    {x : JoinedRow} : x ∈ sortRows f l ↔ x ∈ l :=
  List.mem_insertionSort _

/-! ### Membership in a listing result -/

theorem mem_visibleRows {o : CommentQuery} {site : Site} {db : Db}
    {r : JoinedRow} (h : r ∈ visibleRows o site db) :
    r ∈ joins db (personId o.local_user) ∧ passesFilters o site db r = true :=
  List.mem_filter.mp h

theorem mem_of_list_ok {o : CommentQuery} {site : Site} {db : Db}
    {l : List JoinedRow} {r : JoinedRow} (h : o.list site db = .ok l)
    (hr : r ∈ l) : r ∈ visibleRows o site db := by
  unfold CommentQuery.list at h
  rcases hmd : o.max_depth with _ | d
  · rw [hmd] at h
    rcases hlo : limit_and_offset o.page o.limit with e | ⟨lim, off⟩
    · simp [hlo] at h
    · simp only [hlo, bind, Except.bind, pure, Except.pure, Except.ok.injEq] at h
      subst h
      exact mem_sortRows.mp (List.mem_of_mem_drop (List.mem_of_mem_take hr))
  · rw [hmd] at h
    simp only [Except.ok.injEq] at h
    subst h
    exact mem_sortRows.mp (List.mem_of_mem_take hr)

/-- Facts the join shape guarantees for every joined row: the inner joins
tie the community to the post and the creator to the comment, and a present
viewer `community_actions` row is a real row of the table keyed by the
post's community and the viewer. -/
theorem joins_facts {db : Db} {mpid : Option Nat} {r : JoinedRow}
    (h : r ∈ joins db mpid) :
    r.community.id = r.post.community_id ∧
      r.creator.id = r.comment.creator_id ∧
      r.creator ∈ db.persons ∧
      (∀ ca, r.community_actions = some ca →
        ∃ pid, mpid = some pid ∧ ca ∈ db.community_actions ∧
          ca.community_id = r.post.community_id ∧ ca.person_id = pid) := by
  unfold joins at h
  rw [List.mem_filterMap] at h
  obtain ⟨c, _, hf⟩ := h
  simp only [bind, Option.bind_eq_some, Option.some.injEq] at hf
  obtain ⟨creator, hcr, post, hpo, community, hcm, hr⟩ := hf
  subst hr
  refine ⟨?_, ?_, List.mem_of_find?_eq_some hcr, ?_⟩
  · simpa using List.find?_some hcm
  · simpa using List.find?_some hcr
  · intro ca hca
    simp only [optJoin, Option.bind_eq_some] at hca
    obtain ⟨pid, hpid, hfind⟩ := hca
    have hpred := List.find?_some hfind
    simp only [Bool.and_eq_true, beq_iff_eq] at hpred
    exact ⟨pid, hpid, List.mem_of_find?_eq_some hfind, hpred.1, hpred.2⟩

/-- A row that survives the private-community predicate yet lies in a
`Private` community carries an `Accepted` follow row of the viewer. -/
theorem private_needs_accepted {db : Db} {mpid : Option Nat} {r : JoinedRow}
    (hj : r ∈ joins db mpid) (hp : privatePred r = true)
    (hpriv : r.community.visibility = .Private) :
    ∃ ca ∈ db.community_actions, ca.community_id = r.community.id ∧
      some ca.person_id = mpid ∧ ca.follow_state = some .Accepted := by
  unfold privatePred at hp
  rw [hpriv] at hp
  simp only [bne_self_eq_false, Bool.false_or, beq_iff_eq] at hp
  obtain ⟨ca, hca, hfs⟩ := Option.bind_eq_some.mp hp
  obtain ⟨hcid, -, -, hfacts⟩ := joins_facts hj
  obtain ⟨pid, hpid, hmem, hcak, hpk⟩ := hfacts ca hca
  exact ⟨ca, hmem, by rw [hcid]; exact hcak, by rw [hpid, hpk], hfs⟩

/-! ### Fixtures

`treeDb` mirrors the comment tree of the in-repo tests: root comment 1 with
children 2 and 3, comment 2 with children 4 and 5, and comment 5 with child
6 (claim names: root, C1, C2, C3, C4, C5).  All comments belong to post 30
in public community 20 on instance 1. -/

def mkComment (id creator : Nat) (path : List Nat) (pub : Int) : Comment :=
  { id := id, creator_id := creator, post_id := 30, content := "c",
    removed := false, path := path, distinguished := false, language_id := 7,
    deleted := false, federation_pending := false, score := 0, hot_rank := 0,
    controversy_rank := 0, published := pub }

def treeDb : Db :=
  { comments :=
      [ mkComment 1 10 [0, 1] 1, mkComment 2 11 [0, 1, 2] 2,
        mkComment 3 10 [0, 1, 3] 3, mkComment 4 10 [0, 1, 2, 4] 4,
        mkComment 5 10 [0, 1, 2, 5] 5, mkComment 6 10 [0, 1, 2, 5, 6] 6 ]
    posts := [{ id := 30, community_id := 20, nsfw := false }]
    communities :=
      [{ id := 20, instance_id := 1, is_local := true, nsfw := false,
         visibility := .Public }]
    persons :=
      [ { id := 10, instance_id := 1, bot_account := false },
        { id := 11, instance_id := 1, bot_account := false } ]
    local_users := []
    community_actions := []
    comment_actions := []
    person_actions := []
    instance_actions := []
    local_user_languages := []
    now := 100 }

def siteNoCw : Site := { content_warning := none }

def creatorLu : LocalUser :=
  { id := 100, person_id := 10, admin := false, show_nsfw := false,
    show_bot_accounts := true }

def otherLu : LocalUser :=
  { id := 102, person_id := 11, admin := false, show_nsfw := false,
    show_bot_accounts := true }

def dummyRow : JoinedRow :=
  { comment := mkComment 0 0 [] 0
    creator := { id := 0, instance_id := 0, bot_account := false }
    post := { id := 0, community_id := 0, nsfw := false }
    community :=
      { id := 0, instance_id := 0, is_local := false, nsfw := false,
        visibility := .Public }
    community_actions := none
    comment_actions := none
    person_actions := none
    instance_actions := none
    creator_community_actions := none
    local_user := none }

/-! ### Claim C5: tree scoping on the concrete test tree -/

def c5SubtreeQuery : CommentQuery :=
  { parent_path := some [0, 1, 2], max_depth := some 1, sort := some .New }

/-- Claim C5, counterexample: on the test tree, the subtree listing with
`parent_path = C1.path` (comment 2) and `max_depth = 1` returns comment 2 —
the parent C1 itself — because ltree containment (`<@`) is reflexive; the
claim states C1 is excluded.  (The result is C1, C4, C3 in the requested
`New` order, matching the in-repo test `test_comment_tree`, which asserts 3
rows with "Comment 3" last.) -/
theorem c5_counterexample :
    ((c5SubtreeQuery.list siteNoCw treeDb).map
        (List.map (fun r => r.comment.id))) = .ok [2, 5, 4] ∧
      2 ∈ [2, 5, 4] :=
  ⟨rfl, by decide⟩

/-- Claim C5 (amended): `max_depth = 1` with no parent path returns exactly
the root, and `parent_path = C1.path` with `max_depth = 1` returns exactly
the set {C1, C3, C4} (the parent C1 itself included, C5 excluded), sorted
by the requested order — parent-path prefix first, then the `New` sort
(ids 2, 5, 4). -/
theorem c5_tree_scoping :
    ((CommentQuery.list { max_depth := some 1 } siteNoCw treeDb).map
        (List.map (fun r => r.comment.id))) = .ok [1] ∧
      ((c5SubtreeQuery.list siteNoCw treeDb).map
        (List.map (fun r => r.comment.id))) = .ok [2, 5, 4] :=
  ⟨rfl, rfl⟩

/-! ### Claim C2: private communities require admin or accepted follow -/

/-- Claim C2: a comment of a `Private` community is returned — by
`CommentQuery::list` under any listing type, and by `CommentView::read` —
only if the viewer is an admin or holds an `Accepted` follow row for that
community; in particular the unauthenticated viewer and non-followers never
receive it (`read` yields `none`, the model of `NotFound`). -/
theorem c2_private_community (site : Site) (db : Db) :
    (∀ (o : CommentQuery) (l : List JoinedRow), is_admin o.local_user = false →
      o.list site db = .ok l → ∀ r ∈ l, r.community.visibility = .Private →
        ∃ ca ∈ db.community_actions, ca.community_id = r.community.id ∧
          some ca.person_id = personId o.local_user ∧
          ca.follow_state = some .Accepted) ∧
    (∀ (cid : Nat) (u : Option LocalUser) (r : JoinedRow), is_admin u = false →
      CommentView.read db cid u = some r → r.community.visibility = .Private →
        ∃ ca ∈ db.community_actions, ca.community_id = r.community.id ∧
          some ca.person_id = personId u ∧
          ca.follow_state = some .Accepted) := by
  constructor
  · intro o l hadm hl r hr hpriv
    have hvis := mem_of_list_ok hl hr
    have hpass := (mem_visibleRows hvis).2
    have hj := (mem_visibleRows hvis).1
    simp only [passesFilters, hadm, Bool.and_eq_true, Bool.false_or] at hpass
    exact private_needs_accepted hj hpass.1.1.2 hpriv
  · intro cid u r hadm hread hpriv
    unfold CommentView.read at hread
    rw [hadm] at hread
    simp only [Bool.false_eq_true, if_false] at hread
    have hmem := List.mem_of_mem_head? (by rw [hread]; exact rfl)
    rw [List.mem_filter] at hmem
    obtain ⟨hmem2, hp⟩ := hmem
    unfold visible_communities_only at hmem2
    rw [List.mem_filter] at hmem2
    rw [List.mem_filter] at hmem2
    exact private_needs_accepted hmem2.1.1 hp hpriv

def dbPrivate : Db :=
  { treeDb with
    communities :=
      [{ id := 20, instance_id := 1, is_local := true, nsfw := false,
         visibility := .Private }]
    persons := treeDb.persons ++ [{ id := 12, instance_id := 1, bot_account := false }]
    local_users :=
      [{ id := 101, person_id := 12, admin := false, show_nsfw := false,
         show_bot_accounts := true }]
    community_actions :=
      [{ community_id := 20, person_id := 12, followed := some 1,
         follow_state := some .Accepted, became_moderator := none,
         received_ban := none }]
    local_user_languages := [{ local_user_id := 101, language_id := 7 }] }

def followerLu : LocalUser :=
  { id := 101, person_id := 12, admin := false, show_nsfw := false,
    show_bot_accounts := true }

def c2Query : CommentQuery := { local_user := some followerLu }

def c2List : List JoinedRow :=
  (c2Query.list siteNoCw dbPrivate).toOption.getD []

def c2Row : JoinedRow := c2List.head (by decide)

/-- Claim C2, witness: the private-community theorem applied to the
non-admin accepted follower listing the private test community, and to the
same viewer reading comment 1. -/
theorem c2_private_community_witness :
    (∃ ca ∈ dbPrivate.community_actions, ca.community_id = c2Row.community.id ∧
      some ca.person_id = personId (some followerLu) ∧
      ca.follow_state = some .Accepted) ∧
    (∃ ca ∈ dbPrivate.community_actions,
      ca.community_id = ((CommentView.read dbPrivate 1 (some followerLu)).getD
        dummyRow).community.id ∧
      some ca.person_id = personId (some followerLu) ∧
      ca.follow_state = some .Accepted) :=
  ⟨(c2_private_community siteNoCw dbPrivate).1 c2Query c2List rfl rfl c2Row
      (List.head_mem _) rfl,
    (c2_private_community siteNoCw dbPrivate).2 1 (some followerLu)
      ((CommentView.read dbPrivate 1 (some followerLu)).getD dummyRow) rfl rfl rfl⟩

/-! ### Claim C1: blocked creators -/

/-- The test tree where person 10 (local user 100) blocks person 11, the
creator of comment 2, and moderates community 20. -/
def dbBlocked : Db :=
  { treeDb with
    local_users :=
      [{ id := 100, person_id := 10, admin := false, show_nsfw := false,
         show_bot_accounts := true }]
    local_user_languages := [{ local_user_id := 100, language_id := 7 }]
    person_actions :=
      [{ person_id := 10, target_id := 11, blocked := some 1 }]
    community_actions :=
      [{ community_id := 20, person_id := 10, followed := none,
         follow_state := none, became_moderator := some 1,
         received_ban := none }] }

/-- Claim C1, counterexample: person 10 blocks person 11, yet
`CommentView::read` of person 11's comment 2 by person 10 succeeds — `read`
(`comment_view.rs` lines 94-121) applies no block filter (the in-repo test
`test_crud` reads a blocked creator's comment and asserts success) — and a
`ModeratorView` listing also returns comment 2, because the block filter is
only attached for non-`ModeratorView` listings (lines 211-226). -/
def c1ModQuery : CommentQuery :=
  { listing_type := some .ModeratorView, local_user := some creatorLu }

theorem c1_counterexample :
    blockedPerson dbBlocked 10 11 = true ∧
      ((CommentView.read dbBlocked 2 (some creatorLu)).map
        (fun r => (r.comment.id, r.comment.creator_id))) = some (2, 11) ∧
      ((c1ModQuery.list siteNoCw dbBlocked).map
        (List.map (fun r => r.comment.id))) = .ok [1, 2, 3, 4, 5, 6] ∧
      2 ∈ [1, 2, 3, 4, 5, 6] :=
  ⟨rfl, rfl, rfl, by decide⟩

/-- Claim C1 (amended): for an authenticated viewer and any listing type
other than `ModeratorView`, no comment whose creator is blocked by the
viewer — directly, or because every person row of that creator has a
blocked instance — appears in a `CommentQuery::list` result (unless the
viewer is the creator); `CommentView::read` of such a comment, however,
still succeeds. -/
theorem c1_blocked_creator_excluded (o : CommentQuery) (site : Site) (db : Db)
    (lu : LocalUser) (hlu : o.local_user = some lu)
    (hlt : o.listing_type.getD .All ≠ .ModeratorView)
    (cid : Nat) (hne : cid ≠ lu.person_id)
    (hblk : blockedPerson db lu.person_id cid = true ∨
      (∀ p ∈ db.persons, p.id = cid →
        blockedInstance db lu.person_id p.instance_id = true))
    (l : List JoinedRow) (hl : o.list site db = .ok l) :
    ∀ r ∈ l, r.comment.creator_id ≠ cid := by
  intro r hr hcreator
  have hvis := mem_of_list_ok hl hr
  have hj := (mem_visibleRows hvis).1
  have hpass := (mem_visibleRows hvis).2
  have hlt' : (o.listing_type.getD .All != .ModeratorView) = true := by
    simpa [bne_iff_ne] using hlt
  simp only [passesFilters, hlu, hlt', Option.isSome_some, Bool.and_eq_true,
    if_true, Bool.and_self, and_true, true_and] at hpass
  have hblocked := hpass.1.1.1.1.1.1.2.2
  unfold filter_blocked at hblocked
  simp only [personId, Option.map_some'] at hblocked
  rw [hcreator] at hblocked
  simp only [Bool.or_eq_true, Bool.and_eq_true, Bool.not_eq_true',
    beq_iff_eq] at hblocked
  rcases hblocked with hblocked | ⟨hbp, hbi⟩
  · exact hne hblocked
  · rcases hblk with hblk | hblk
    · rw [hblk] at hbp
      exact Bool.noConfusion hbp
    · obtain ⟨-, hcr, hcrmem, -⟩ := joins_facts hj
      have := hblk r.creator hcrmem (hcr.trans hcreator)
      rw [this] at hbi
      exact Bool.noConfusion hbi

def c1Query : CommentQuery := { local_user := some creatorLu }

def c1List : List JoinedRow :=
  (c1Query.list siteNoCw dbBlocked).toOption.getD []

def c1Row : JoinedRow := c1List.head (by decide)

/-- Claim C1, witness: the exclusion theorem applied to person 10's default
(`All`) listing on `dbBlocked`, at its first returned row. -/
theorem c1_blocked_creator_excluded_witness : c1Row.comment.creator_id ≠ 11 :=
  c1_blocked_creator_excluded c1Query siteNoCw dbBlocked creatorLu rfl
    (by decide) 11 (by decide) (Or.inl rfl) c1List rfl c1Row (List.head_mem _)

/-! ### Claim C3: federation-pending comments -/

/-- The test tree with comment 1 pending federation; persons 10 (its
creator) and 11 have local users 100 and 102 with English enabled. -/
def dbPending : Db :=
  { treeDb with
    comments :=
      { mkComment 1 10 [0, 1] 1 with federation_pending := true } ::
        treeDb.comments.tail
    local_users :=
      [ { id := 100, person_id := 10, admin := false, show_nsfw := false,
          show_bot_accounts := true },
        { id := 102, person_id := 11, admin := false, show_nsfw := false,
          show_bot_accounts := true } ]
    local_user_languages :=
      [ { local_user_id := 100, language_id := 7 },
        { local_user_id := 102, language_id := 7 } ] }

/-- Claim C3, counterexample: comment 1 is federation-pending and created by
person 10, yet `CommentView::read` by person 11's local user returns it —
`read` applies no federation-pending filter (`comment_view.rs` lines
94-121), so the claimed `NotFound` for non-creators does not happen. -/
theorem c3_counterexample :
    ((CommentView.read dbPending 1 (some otherLu)).map
        (fun r => (r.comment.id, r.comment.federation_pending,
          r.comment.creator_id))) = some (1, true, 10) ∧
      personId (some otherLu) ≠ some 10 :=
  ⟨rfl, by decide⟩

/-- Claim C3 (amended): a federation-pending comment is excluded from every
`CommentQuery::list` result whose viewer is not its creator, and the
creator still sees it in listings (comment 1, pending, listed first for its
creator below); `CommentView::read`, however, does not filter
federation-pending comments. -/
theorem c3_federation_pending :
    (∀ (o : CommentQuery) (site : Site) (db : Db) (l : List JoinedRow),
      o.list site db = .ok l → ∀ r ∈ l, r.comment.federation_pending = true →
        personId o.local_user = some r.comment.creator_id) ∧
      ((CommentQuery.list { local_user := some creatorLu } siteNoCw dbPending).map
        (List.map (fun r => (r.comment.id, r.comment.federation_pending)))) =
        .ok [(1, true), (2, false), (3, false), (4, false), (5, false),
          (6, false)] := by
  constructor
  · intro o site db l hl r hr hpend
    have hpass := (mem_visibleRows (mem_of_list_ok hl hr)).2
    simp only [passesFilters, hpend, Bool.and_eq_true, Bool.not_true,
      Bool.false_or, beq_iff_eq] at hpass
    exact hpass.1.1.1.2
  · rfl

def c3List : List JoinedRow :=
  (CommentQuery.list { local_user := some creatorLu } siteNoCw
    dbPending).toOption.getD []

def c3Row : JoinedRow := c3List.head (by decide)

/-- Claim C3, witness: the exclusion theorem applied to the creator's own
listing, whose first row is the pending comment 1. -/
theorem c3_federation_pending_witness :
    personId (some creatorLu) = some c3Row.comment.creator_id :=
  c3_federation_pending.1 { local_user := some creatorLu } siteNoCw dbPending
    c3List rfl c3Row (List.head_mem _) rfl

/-! ### Claim C4: depth ceiling of tree fetches -/

/-- Claim C4: with `max_depth = d`, every returned comment's path length
(node count) is at most `parent_path.length + d` when a parent path is
given, and at most `d + 1` when none is given. -/
theorem c4_depth_ceiling (o : CommentQuery) (site : Site) (db : Db) (d : Int)
    (hd : o.max_depth = some d) (l : List JoinedRow)
    (hl : o.list site db = .ok l) (r : JoinedRow) (hr : r ∈ l) :
    (∀ pp, o.parent_path = some pp →
        (r.comment.path.length : Int) ≤ (pp.length : Int) + d) ∧
      (o.parent_path = none → (r.comment.path.length : Int) ≤ d + 1) := by
  have hpass := (mem_visibleRows (mem_of_list_ok hl hr)).2
  simp only [passesFilters, hd, Bool.and_eq_true, decide_eq_true_eq] at hpass
  have hdep := hpass.1.2
  constructor
  · intro pp hpp
    simpa only [depthLimit, hpp] using hdep
  · intro hpp
    simpa only [depthLimit, hpp] using hdep

def c4List : List JoinedRow :=
  (c5SubtreeQuery.list siteNoCw treeDb).toOption.getD []

def c4Row : JoinedRow := c4List.head (by decide)

/-- Claim C4, witness: the depth ceiling theorem applied to the concrete
subtree fetch on the test tree. -/
theorem c4_depth_ceiling_witness :
    (c4Row.comment.path.length : Int) ≤ (([0, 1, 2] : List Nat).length : Int) + 1 :=
  (c4_depth_ceiling c5SubtreeQuery siteNoCw treeDb 1 rfl c4List rfl c4Row
    (List.head_mem _)).1 [0, 1, 2] rfl

end Lemmy

namespace Lemmy

/-! ### Claim C6: tree fetches ignore pagination and cap at 300 -/

/-- Claim C6: when `max_depth` is set, the caller's `page` and `limit` do
not influence the result (pagination is disabled) and at most 300 rows are
returned (`comment_view.rs` lines 250-277 fix `(limit, offset) = (300, 0)`
for tree fetches). -/
theorem c6_tree_fetch_cap (o : CommentQuery) (site : Site) (db : Db) (d : Int)
    (hd : o.max_depth = some d) :
    (∀ p lim, ({ o with page := p, limit := lim } : CommentQuery).list site db
        = o.list site db) ∧
      (∀ l, o.list site db = .ok l → l.length ≤ 300) := by
  constructor
  · intro p lim
    cases o
    simp only at hd
    subst hd
    rfl
  · intro l hl
    unfold CommentQuery.list at hl
    rw [hd] at hl
    simp only [Except.ok.injEq] at hl
    subst hl
    exact List.length_take_le _ _

def c6Query : CommentQuery := { max_depth := some 1 }

/-- Claim C6, witness: the cap theorem applied to the depth-1 fetch on the
test tree with an absurd page and limit. -/
theorem c6_tree_fetch_cap_witness :
    (({ c6Query with page := some 99, limit := some 1 } : CommentQuery).list
        siteNoCw treeDb = c6Query.list siteNoCw treeDb) ∧
      ((c6Query.list siteNoCw treeDb).toOption.getD []).length ≤ 300 :=
  ⟨(c6_tree_fetch_cap c6Query siteNoCw treeDb 1 rfl).1 (some 99) (some 1),
    (c6_tree_fetch_cap c6Query siteNoCw treeDb 1 rfl).2
      ((c6Query.list siteNoCw treeDb).toOption.getD []) rfl⟩

/-! ### Claim C8: the NSFW gate -/

/-- The test tree with post 30 flagged NSFW. -/
def dbNsfw : Db :=
  { treeDb with posts := [{ id := 30, community_id := 20, nsfw := true }] }

def siteCw : Site := { content_warning := some "nsfw" }

/-- Claim C8, counterexample: post 30 is NSFW and the viewer is
unauthenticated — so has no true `show_nsfw` preference (the spec's
unauthenticated default is `show_nsfw = false`) — yet with a site
content-warning set the listing returns all six comments, exactly as the
in-repo test `comment_listings_hide_nsfw` asserts; this refutes "only if
the viewer's show_nsfw preference is true AND the site has a
content-warning set". -/
theorem c8_counterexample :
    (dbNsfw.posts.map (·.nsfw)) = [true] ∧
      ((CommentQuery.list {} siteCw dbNsfw).map
        (List.map (fun r => r.comment.id))) = .ok [1, 2, 3, 4, 5, 6] :=
  ⟨rfl, rfl⟩

/-- Claim C8 (amended): a comment whose post and community are both not
NSFW is never excluded by the NSFW conjunct; a comment whose post or
community is NSFW appears in a listing only if `show_nsfw` holds for the
viewer and site — for an authenticated viewer their `show_nsfw` preference
together with a site content-warning, and for the unauthenticated viewer a
site content-warning alone. -/
theorem c8_nsfw_gate :
    (∀ (u : Option LocalUser) (site : Site) (r : JoinedRow),
      r.post.nsfw = false → r.community.nsfw = false →
        (show_nsfw u site || (!r.post.nsfw && !r.community.nsfw)) = true) ∧
      (∀ (o : CommentQuery) (site : Site) (db : Db) (l : List JoinedRow),
        o.list site db = .ok l → ∀ r ∈ l,
          r.post.nsfw = true ∨ r.community.nsfw = true →
            show_nsfw o.local_user site = true) ∧
      (∀ (lu : LocalUser) (site : Site),
        show_nsfw (some lu) site = (lu.show_nsfw && site.content_warning.isSome)) ∧
      (∀ site : Site, show_nsfw none site = site.content_warning.isSome) := by
  refine ⟨?_, ?_, fun _ _ => rfl, fun _ => rfl⟩
  · intro u site r hp hc
    simp [hp, hc]
  · intro o site db l hl r hr hn
    have hpass := (mem_visibleRows (mem_of_list_ok hl hr)).2
    simp only [passesFilters, Bool.and_eq_true] at hpass
    have hnsfw := hpass.1.1.1.1.1.2
    rcases hn with hn | hn <;>
      simpa [hn] using hnsfw

def c8List : List JoinedRow :=
  (CommentQuery.list {} siteCw dbNsfw).toOption.getD []

def c8Row : JoinedRow := c8List.head (by decide)

/-- Claim C8, witness: the gate theorem applied to the unauthenticated
listing of the NSFW test tree with a site content-warning. -/
theorem c8_nsfw_gate_witness : show_nsfw none siteCw = true :=
  c8_nsfw_gate.2.1 {} siteCw dbNsfw c8List rfl c8Row (List.head_mem _)
    (Or.inl rfl)

end Lemmy

namespace Lemmy

/-! ### Claim C9: limit default and bounds -/

def c9Query : CommentQuery := { limit := some 1000 }

/-- Claim C9, counterexample: a flat listing with the over-maximum limit
1000 fails with `InvalidPagination` instead of returning the clamped
(maximum) number of items (the source propagates the bounds error with
`limit_and_offset(o.page, o.limit)?`, line 280; spec §4.5 and §7 say
out-of-bounds limits are rejected). -/
theorem c9_counterexample :
    c9Query.list siteNoCw treeDb = .error .invalidPagination ∧
      fetchLimitMax < 1000 :=
  ⟨rfl, by decide⟩

/-- Claim C9 (amended): without `max_depth`, an unspecified limit falls back
to the fixed default, and a limit above the maximum makes the call fail
with `InvalidPagination` rather than clamping. -/
theorem c9_limit_bounds :
    limit_and_offset none none = .ok (fetchLimitDefault, 0) ∧
      (∀ (o : CommentQuery) (site : Site) (db : Db) (lim : Int),
        o.max_depth = none → o.limit = some lim → fetchLimitMax < lim →
          o.list site db = .error .invalidPagination) := by
  refine ⟨rfl, ?_⟩
  intro o site db lim hmd hlim hgt
  have hlo : limit_and_offset o.page o.limit = .error .invalidPagination := by
    rw [hlim]
    unfold limit_and_offset
    simp [not_le.mpr hgt]
  unfold CommentQuery.list
  rw [hmd, hlo]
  rfl

/-- Claim C9, witness: the bounds theorem applied to the concrete over-limit
query on the test tree. -/
theorem c9_limit_bounds_witness :
    c9Query.list siteNoCw treeDb = .error .invalidPagination :=
  c9_limit_bounds.2 c9Query siteNoCw treeDb 1000 rfl rfl (by decide)

/-! ### Claim C10: liked-only and disliked-only filters -/

/-- Claim C10: for an authenticated viewer, `liked_only` restricts the
listing to comments by other people with the viewer's like score `+1`
(taking precedence over `disliked_only` when both are set, since the source
tests `liked_only` first), `disliked_only` alone restricts to other
people's comments with score `-1`, and for an unauthenticated query both
flags are never read. -/
theorem c10_liked_disliked :
    (∀ (o : CommentQuery) (site : Site) (db : Db) (lu : LocalUser)
        (l : List JoinedRow), o.local_user = some lu →
      o.liked_only.getD false = true → o.list site db = .ok l → ∀ r ∈ l,
        r.comment.creator_id ≠ lu.person_id ∧
          (r.comment_actions.bind (·.like_score)) = some 1) ∧
      (∀ (o : CommentQuery) (site : Site) (db : Db) (lu : LocalUser)
          (l : List JoinedRow), o.local_user = some lu →
        o.liked_only.getD false = false → o.disliked_only.getD false = true →
        o.list site db = .ok l → ∀ r ∈ l,
          r.comment.creator_id ≠ lu.person_id ∧
            (r.comment_actions.bind (·.like_score)) = some (-1)) ∧
      (∀ (o : CommentQuery) (site : Site) (db : Db) (a b : Option Bool),
        o.local_user = none →
          CommentQuery.list { o with liked_only := a, disliked_only := b }
            site db = o.list site db) := by
  refine ⟨?_, ?_, ?_⟩
  · intro o site db lu l hlu hliked hl r hr
    have hpass := (mem_visibleRows (mem_of_list_ok hl hr)).2
    simp only [passesFilters, hlu, hliked, personId, Option.map_some',
      if_true, Bool.and_eq_true, bne_iff_ne, ne_eq, beq_iff_eq] at hpass
    exact hpass.1.1.1.1.1.1.1.1.2
  · intro o site db lu l hlu hliked hdisliked hl r hr
    have hpass := (mem_visibleRows (mem_of_list_ok hl hr)).2
    simp only [passesFilters, hlu, hliked, hdisliked, personId,
      Option.map_some', Bool.false_eq_true, if_false, if_true,
      Bool.and_eq_true, bne_iff_ne, ne_eq, beq_iff_eq] at hpass
    exact hpass.1.1.1.1.1.1.1.1.2
  · intro o site db a b hlu
    cases o
    simp only at hlu
    subst hlu
    rfl

/-- The test tree where person 10 (local user 100) liked comment 2 (created
by person 11). -/
def dbLikes : Db :=
  { treeDb with
    local_users :=
      [{ id := 100, person_id := 10, admin := false, show_nsfw := false,
         show_bot_accounts := true }]
    local_user_languages := [{ local_user_id := 100, language_id := 7 }]
    comment_actions :=
      [{ comment_id := 2, person_id := 10, like_score := some 1 }] }

def c10Query : CommentQuery :=
  { local_user := some creatorLu, liked_only := some true }

def c10List : List JoinedRow :=
  (c10Query.list siteNoCw dbLikes).toOption.getD []

def c10Row : JoinedRow := c10List.head (by decide)

/-- Claim C10, witness: the theorem applied to person 10's liked-only
listing (returning exactly the liked comment 2 of person 11) and to an
unauthenticated query with both flags set. -/
theorem c10_liked_disliked_witness :
    (c10Row.comment.creator_id ≠ creatorLu.person_id ∧
      (c10Row.comment_actions.bind (·.like_score)) = some 1) ∧
      CommentQuery.list { ({} : CommentQuery) with liked_only := some true, disliked_only := some true } siteNoCw treeDb
        = CommentQuery.list {} siteNoCw treeDb :=
  ⟨c10_liked_disliked.1 c10Query siteNoCw dbLikes creatorLu c10List rfl rfl
      rfl c10Row (List.head_mem _),
    c10_liked_disliked.2.2 {} siteNoCw treeDb (some true) (some true) rfl⟩

end Lemmy

namespace Lemmy

/-! ### Claim C7: distinguished-first ordering -/

/-- When the sort key starts with the `distinguished desc` column (scoped
queries without a tree fetch), the row order never places a distinguished
row after a non-distinguished one. -/
theorem rowLe_dist {s : CommentSortType} {a b : JoinedRow}
    (h : rowLe (sortKey false true s) a b) :
    b.comment.distinguished = true → a.comment.distinguished = true := by
  intro hb
  by_contra ha
  rw [Bool.not_eq_true] at ha
  unfold rowLe sortKey at h
  rw [ha, hb] at h
  simp [lexLe, lexLtInt] at h

/-- The test tree with comment 3 marked distinguished. -/
def dbDist : Db :=
  { treeDb with
    comments :=
      [ mkComment 1 10 [0, 1] 1, mkComment 2 11 [0, 1, 2] 2,
        { mkComment 3 10 [0, 1, 3] 3 with distinguished := true },
        mkComment 4 10 [0, 1, 2, 4] 4, mkComment 5 10 [0, 1, 2, 5] 5,
        mkComment 6 10 [0, 1, 2, 5, 6] 6 ] }

/-- A two-comment thread whose deeper comment 2 is distinguished. -/
def dbDistTree : Db :=
  { treeDb with
    comments :=
      [ mkComment 1 10 [0, 1] 1,
        { mkComment 2 10 [0, 1, 2] 2 with distinguished := true } ] }

def c7TreeQuery : CommentQuery := { post_id := some 30, max_depth := some 5 }

/-- Claim C7, counterexample: in a post-scoped tree fetch (`max_depth` set)
the parent-path ordering is attached before `distinguished desc`
(`comment_view.rs` lines 262-265 precede 284-286), so the non-distinguished
root comment 1 is returned before the distinguished reply 2 — the claimed
distinguished-first ordering fails for this scoped call. -/
theorem c7_counterexample :
    ((c7TreeQuery.list siteNoCw dbDistTree).map
        (List.map (fun r => (r.comment.id, r.comment.distinguished)))) =
      .ok [(1, false), (2, true)] ∧
      ¬ ([false, true].Pairwise (fun a b => b = true → a = true)) :=
  ⟨rfl, by decide⟩

def c7UnscopedQuery : CommentQuery := { sort := some .New }

/-- Claim C7 (amended): in a `CommentQuery::list` result scoped to a single
post or subtree *without* `max_depth`, every distinguished comment is
ordered before every non-distinguished one for every chosen sort; when
`max_depth` is set the parent-path ordering takes precedence instead; and
unscoped listings give distinguished comments no promotion (on the test
tree with distinguished comment 3, the unscoped `New` listing leaves it in
plain recency position). -/
theorem c7_distinguished_first :
    (∀ (o : CommentQuery) (site : Site) (db : Db) (l : List JoinedRow),
      (o.post_id.isSome || o.parent_path.isSome) = true → o.max_depth = none →
        o.list site db = .ok l →
        l.Pairwise (fun a b => b.comment.distinguished = true →
          a.comment.distinguished = true)) ∧
      ((c7UnscopedQuery.list siteNoCw dbDist).map
        (List.map (fun r => (r.comment.id, r.comment.distinguished)))) =
        .ok [(6, false), (5, false), (4, false), (3, true), (2, false),
          (1, false)] := by
  constructor
  · intro o site db l hscope hmd hl
    unfold CommentQuery.list at hl
    simp only [hmd, hscope, Option.isSome_none, Bool.false_and] at hl
    rcases hlo : limit_and_offset o.page o.limit with e | ⟨lim, off⟩
    · rw [hlo] at hl
      simp [bind, Except.bind] at hl
    · rw [hlo] at hl
      simp only [bind, Except.bind, pure, Except.pure, Except.ok.injEq] at hl
      subst hl
      have hs := sorted_sortRows (sortKey false true (o.sort.getD .Hot))
        (visibleRows o site db)
      have hsub :
          List.Sublist
            (((sortRows (sortKey false true (o.sort.getD .Hot))
              (visibleRows o site db)).drop off.toNat).take lim.toNat)
            (sortRows (sortKey false true (o.sort.getD .Hot))
              (visibleRows o site db)) :=
        (List.take_sublist _ _).trans (List.drop_sublist _ _)
      exact (hs.sublist hsub).imp (fun hab => rowLe_dist hab)
  · rfl

def c7Query : CommentQuery := { post_id := some 30, sort := some .New }

def c7List : List JoinedRow :=
  (c7Query.list siteNoCw dbDist).toOption.getD []

/-- Claim C7, witness: the distinguished-first theorem applied to the
post-scoped `New` listing of the test tree with distinguished comment 3
(which indeed comes back first there). -/
theorem c7_distinguished_first_witness :
    c7List.Pairwise (fun a b => b.comment.distinguished = true →
      a.comment.distinguished = true) :=
  c7_distinguished_first.1 c7Query siteNoCw dbDist c7List rfl rfl rfl

end Lemmy
